import Mathlib

/-!
Verification of the seat-allocation system (Lavanya-Bajpai/seat-allocation-sys).

The HTTP layer (`src/algo/app.py`), the demo-DB batch mappings and the student
file parser (`src/algo/student_parser.py`) are embedded directly from the
source.  The seating engine itself (`algo.SeatingAlgorithm`) is imported by
`app.py` but its module is not part of the reviewed sources; the engine
definitions below are therefore modelled from the specification (sections
4.1 to 4.5), as indicated in their doc comments.
-/

/-! ## Character-level string helpers (model of Python str operations) -/

/-- Python `str.strip()` on a character list: drop whitespace from both ends. -/
def trimChars (l : List Char) : List Char :=
  ((l.dropWhile Char.isWhitespace).reverse.dropWhile Char.isWhitespace).reverse

/-- Python `str.split(sep)` (no maxsplit) on a character list. -/
def splitOnChar (sep : Char) : List Char → List (List Char)
  | [] => [[]]
  | c :: rest =>
    let r := splitOnChar sep rest
    if c = sep then [] :: r
    else
      match r with
      | [] => [[c]]
      | h :: t => (c :: h) :: t

/-- Python `str.split(sep, 1)` on a character list: split at the first
occurrence of `sep`; `none` when `sep` does not occur. -/
def splitOnceChar (sep : Char) : List Char → Option (List Char × List Char)
  | [] => none
  | c :: rest =>
    if c = sep then some ([], rest)
    else
      match splitOnceChar sep rest with
      | some (a, b) => some (c :: a, b)
      | none => none

/-- Decimal digit run to a natural number; `none` unless non-empty and all digits. -/
def digitsToNat (l : List Char) : Option Nat :=
  if l ≠ [] ∧ l.all Char.isDigit then
    some (l.foldl (fun a c => a * 10 + (c.toNat - 48)) 0)
  else none

/-- Python `int(s)` on a stripped string: optional sign followed by decimal
digits, `none` (an exception in Python) otherwise. -/
def parseIntPy (l : List Char) : Option Int :=
  match trimChars l with
  | '-' :: rest => (digitsToNat rest).map (fun n => -(n : Int))
  | '+' :: rest => (digitsToNat rest).map (fun n => (n : Int))
  | t => (digitsToNat t).map (fun n => (n : Int))

/-! ## Broken-seat request parsing (src/algo/app.py, generate_seating lines
526-538; the identical block appears in constraints_status, lines 667-679) -/

/-- Embeds the broken-seat parsing loop of `generate_seating`: split the
request string on commas, strip each part and keep the non-empty ones; a part
containing a dash is split once at the dash, both sides are parsed as Python
ints, converted from the 1-based `r-c` form to 0-based, and kept only when in
bounds.  Every failure (no dash, unparsable int, out of bounds) silently drops
the part. -/
def parseBrokenSeats (s : String) (rows cols : Int) : List (Int × Int) :=
  if s = "" then []
  else
    (((splitOnChar ',' s.data).map trimChars).filter (fun p => p ≠ [])).filterMap
      (fun part =>
        if '-' ∈ part then
          match splitOnceChar '-' part with
          | some (rs, cs) =>
            match parseIntPy rs, parseIntPy cs with
            | some r, some c =>
              if 0 ≤ r - 1 ∧ r - 1 < rows ∧ 0 ≤ c - 1 ∧ c - 1 < cols then
                some (r - 1, c - 1)
              else none
            | _, _ => none
          | none => none
        else none)

/-! ## Input validation of generate_seating (src/algo/app.py lines 613-617) -/

/-- Embeds the "Basic validation" block of `generate_seating`: the first
failing check produces the 400 error string, otherwise `none` and the run
proceeds.  The block width is compared against `cols` only, independent of
`batch_by_column`, and no divisibility condition is checked.  The
`constraints_status` endpoint (lines 656-693) performs no such validation at
all. -/
def generateSeatingValidation (rows cols numBatches blockWidth : Int) : Option String :=
  if rows < 1 ∨ cols < 1 ∨ numBatches < 1 ∨ numBatches > 200 then
    some ("Invalid rows/cols/num_batches")
  else if blockWidth < 1 ∨ blockWidth > cols then
    some ("Invalid block_width")
  else none

/-! ## num_batches resolution (src/algo/app.py lines 557-599) -/

/-- Embeds the batch-count resolution of `generate_seating`: when
`use_demo_db` is set and the demo-DB query returns a non-empty counts mapping,
`num_batches` is replaced by the number of DB batches; in every other case —
in particular when explicit `batch_student_counts` or `batch_roll_numbers`
are supplied in the request — `num_batches` is left exactly as requested.
`explicitCounts` is carried to show that the code never consults it here. -/
def effectiveNumBatches (useDemoDb : Bool) (dbCounts : List (Nat × Nat))
    (explicitCounts : List (Nat × Nat)) (reqNumBatches : Int) : Int :=
  if useDemoDb then
    if dbCounts.isEmpty then reqNumBatches else (dbCounts.length : Int)
  else reqNumBatches

/-! ## Demo-DB batch mappings (src/algo/app.py lines 150-196)

A database state is modelled as the list of student rows in insertion order
(`ORDER BY inserted_at, id`), each row carrying `(batch_name, enrollment)`.
SQL NULL and the empty string are both modelled as `""` (both are falsy in
the Python fallbacks). -/

/-- One student row: `(batch_name, enrollment)`. -/
abbrev StudentRow := String × String

/-- Lexicographic order on character lists by code point (the order SQLite
BINARY collation and Python `sorted` impose on these strings). -/
def leChars : List Char → List Char → Bool
  | [], _ => true
  | _ :: _, [] => false
  | a :: as, b :: bs => if a = b then leChars as bs else decide (a < b)

/-- Insertion into a sorted list of strings (used to model both the SQL
`ORDER BY batch_name` and Python `sorted`). -/
def insertSorted (s : String) : List String → List String
  | [] => [s]
  | t :: ts => if leChars s.data t.data then s :: t :: ts else t :: insertSorted s ts

/-- Sort a list of strings (insertion sort). -/
def sortStrings (l : List String) : List String := l.foldr insertSorted []

/-- Python `enumerate(rows, start=n)`. -/
def enumFrom {α : Type} : Nat → List α → List (Nat × α)
  | _, [] => []
  | n, a :: as => (n, a) :: enumFrom (n + 1) as

/-- Embeds `get_batch_counts_and_labels_from_db` (app.py 150-171):
`SELECT batch_name, COUNT(*) FROM students GROUP BY batch_name ORDER BY
batch_name`, then `enumerate(rows, start=1)`; a falsy batch name falls back
to the label `BATCH` followed by the numeric index. -/
def getBatchCountsAndLabels (db : List StudentRow) : List (Nat × String) :=
  (enumFrom 1 (sortStrings ((db.map Prod.fst).dedup))).map
    (fun e => ((db.filter (fun r => r.1 = e.2)).length,
               if e.2 = "" then "BATCH" ++ toString e.1 else e.2))

/-- The grouping key used by `get_batch_roll_numbers_from_db`:
`batch_name or "UNKNOWN"`. -/
def rollGroupKey (name : String) : String := if name = "" then "UNKNOWN" else name

/-- Embeds `get_batch_roll_numbers_from_db` (app.py 173-196): fetch all rows
in insertion order, group them by `batch_name or "UNKNOWN"` preserving
per-group insertion order, then assign numeric indices in sorted key order. -/
def getBatchRollNumbers (db : List StudentRow) : List (List String) :=
  (sortStrings ((db.map (fun r => rollGroupKey r.1)).dedup)).map
    (fun key => (db.filter (fun r => rollGroupKey r.1 = key)).map Prod.snd)

/-! ## Student file parser (src/algo/student_parser.py) -/

/-- Embeds `_normalize_enrollment_value`: strip, then remove all internal
whitespace — together, remove every whitespace character. -/
def normEnroll (v : String) : String :=
  String.mk (v.data.filter (fun c => !c.isWhitespace))

/-- One character admitted by the enrollment regex `[A-Za-z0-9\-\_/]`. -/
def enrollCharOk (c : Char) : Bool :=
  ('A' ≤ c && c ≤ 'Z') || ('a' ≤ c && c ≤ 'z') || ('0' ≤ c && c ≤ '9') ||
    (c == '-') || (c == '_') || (c == '/')

/-- The full-match test `^[A-Za-z0-9\-\_/]+$` of the default
`enrollment_regex`. -/
def enrollFormatOk (s : String) : Bool :=
  !(s == "") && s.data.all enrollCharOk

/-- A parser warning entry (row index is 1-based, as in `enumerate(..., start=1)`). -/
structure ParseWarning where
  row : Nat
  issue : String
deriving DecidableEq

/-- The row loop of `StudentDataParser.extract_mode1` (student_parser.py
274-307), carrying the 1-based row index: an empty cell is skipped with an
`empty_enrollment` warning; any other cell is normalized and appended — also
when it fails the format check, which only adds an
`invalid_enrollment_format` warning. -/
def extractMode1Go : Nat → List String → List String × List ParseWarning
  | _, [] => ([], [])
  | idx, v :: rest =>
    let r := extractMode1Go (idx + 1) rest
    if v = "" then (r.1, ⟨idx, "empty_enrollment"⟩ :: r.2)
    else
      let n := normEnroll v
      if enrollFormatOk n then (n :: r.1, r.2)
      else (n :: r.1, ⟨idx, "invalid_enrollment_format"⟩ :: r.2)

/-- Embeds `extract_mode1` applied to the detected enrollment column. -/
def extractMode1 (column : List String) : List String × List ParseWarning :=
  extractMode1Go 1 column

/-- The row loop of `StudentDataParser.extract_mode2` (student_parser.py
340-360) on rows of `(enrollment cell, name cell)`: same skip/include logic
as mode 1, the extracted entry additionally carrying the stripped name. -/
def extractMode2Go : Nat → List (String × String) → List (String × String) × List ParseWarning
  | _, [] => ([], [])
  | idx, (rawEn, rawName) :: rest =>
    let r := extractMode2Go (idx + 1) rest
    if rawEn = "" then (r.1, ⟨idx, "empty_enrollment"⟩ :: r.2)
    else
      let n := normEnroll rawEn
      if enrollFormatOk n then ((String.mk (trimChars rawName.data), n) :: r.1, r.2)
      else ((String.mk (trimChars rawName.data), n) :: r.1, ⟨idx, "invalid_enrollment_format"⟩ :: r.2)

/-- Embeds `extract_mode2`. -/
def extractMode2 (rows : List (String × String)) : List (String × String) × List ParseWarning :=
  extractMode2Go 1 rows

/-- The counts surfaced by `parse_file`: `rows_total`, `rows_extracted`, and
the accumulated warnings. -/
structure ParseResultM where
  rowsTotal : Nat
  rowsExtracted : Nat
  warnings : List ParseWarning
deriving DecidableEq

/-- Embeds `StudentDataParser.parse_file` (student_parser.py 365-410) on an
already-read dataframe, modelled as the list of `(enrollment cell, name
cell)` rows: mode 1 extracts from the enrollment column, mode 2 from both,
any other mode raises `ValueError("mode must be 1 or 2")`. -/
def parseFileM (mode : Nat) (df : List (String × String)) : Except String ParseResultM :=
  if mode = 1 then
    let e := extractMode1 (df.map Prod.fst)
    .ok ⟨df.length, e.1.length, e.2⟩
  else if mode = 2 then
    let e := extractMode2 df
    .ok ⟨df.length, e.1.length, e.2⟩
  else .error ("mode must be 1 or 2")

/-! ## Seating engine (modelled from the spec)

`app.py` imports `algo.SeatingAlgorithm`, whose module is not among the
reviewed sources; everything in this section is modelled from the
specification, as its doc comments state. -/

/-- Modelled from the spec: the per-seat status of §3 Data Model
(`status ∈ {Allocated, Broken, Unallocated}` with the assigned batch id). -/
inductive SeatStatus where
  | broken
  | unallocated
  | allocated (batch : Nat)
deriving DecidableEq

/-- Whether a status is Allocated. -/
def SeatStatus.isAlloc : SeatStatus → Bool
  | .allocated _ => true
  | _ => false

/-- The constructor kind of a status (0 broken, 1 unallocated, 2 allocated),
forgetting the batch id. -/
def SeatStatus.kind : SeatStatus → Nat
  | .broken => 0
  | .unallocated => 1
  | .allocated _ => 2

/-- Modelled from the spec: the engine construction parameters of §6 that the
claims exercise (label-template details beyond prefix/serial are omitted).
`counts` is the per-batch required seat count, index `i` holding batch
`i + 1`; the batch count of the run is `counts.length`. -/
structure EngineConfig where
  rows : Nat
  cols : Nat
  blockWidth : Nat
  batchByColumn : Bool
  enforceNoAdjacent : Bool
  brokenSeats : List (Nat × Nat)
  counts : List Nat
  rosters : List (List String)
  batchPrefixes : List String
  startSerial : Nat
  serialWidth : Nat
deriving DecidableEq

/-- A finished grid: one `(position, status)` entry per seat, in the order
the Grid Builder visited the seats. -/
abbrev Grid := List ((Nat × Nat) × SeatStatus)

/-- All grid positions in row-major order. -/
def gridPositions (r c : Nat) : List (Nat × Nat) :=
  (List.range r).flatMap (fun i => (List.range c).map (fun j => (i, j)))

/-- Modelled from the spec: the Grid Builder's visiting order (§4.1) — blocks
of `block_width` contiguous columns walked column by column when
`batch_by_column`, else blocks of contiguous rows walked row by row.
Concatenating the blocks in order makes this column-major order in the first
case and row-major order in the second. -/
def seatSeq (cfg : EngineConfig) : List (Nat × Nat) :=
  if cfg.batchByColumn then
    (List.range cfg.cols).flatMap (fun j => (List.range cfg.rows).map (fun i => (i, j)))
  else gridPositions cfg.rows cfg.cols

/-- The block a seat belongs to: its column (or row) divided by the block
width. -/
def blockIndex (cfg : EngineConfig) (p : Nat × Nat) : Nat :=
  (if cfg.batchByColumn then p.2 else p.1) / cfg.blockWidth

/-- Modelled from the spec: round-robin batch choice of §4.1 — the block's
own batch when it still needs seats, otherwise cycle onward through the
batches to the next one with remaining demand; `none` when every batch is
exhausted. -/
def pickBatch (preferred : Nat) (remaining : List Nat) : Option Nat :=
  ((List.range remaining.length).map (fun k => (preferred + k) % remaining.length)).find?
    (fun i => decide (0 < remaining.getD i 0))

/-- Modelled from the spec: the Grid Builder walk of §4.1 — visit the seats
in block order; a broken seat is skipped (status Broken, no quota consumed);
otherwise the round-robin batch for the seat's block takes the seat and its
remaining demand drops by one; when all demand is exhausted the seat stays
Unallocated. -/
def allocateSeats (cfg : EngineConfig) : List Nat → List (Nat × Nat) → Grid
  | _, [] => []
  | remaining, p :: rest =>
    if p ∈ cfg.brokenSeats then
      (p, .broken) :: allocateSeats cfg remaining rest
    else
      match pickBatch (blockIndex cfg p) remaining with
      | none => (p, .unallocated) :: allocateSeats cfg remaining rest
      | some i =>
        (p, .allocated (i + 1)) ::
          allocateSeats cfg (remaining.set i (remaining.getD i 0 - 1)) rest

/-- The batch allocated at a position, if any. -/
def batchAt (g : Grid) (p : Nat × Nat) : Option Nat :=
  match g.find? (fun e => decide (e.1 = p)) with
  | some (_, .allocated b) => some b
  | _ => none

/-- Exchange the batch ids held at two positions; only Allocated entries are
rewritten, every other entry is untouched. -/
def swapEntry (p₁ p₂ : Nat × Nat) (b₁ b₂ : Nat) :
    (Nat × Nat) × SeatStatus → (Nat × Nat) × SeatStatus
  | (q, .allocated b) =>
    if q = p₁ then (q, .allocated b₂)
    else if q = p₂ then (q, .allocated b₁)
    else (q, .allocated b)
  | e => e

/-- Modelled from the spec: the swap of §4.2 — the two seats exchange batch
assignments, not positions. -/
def swapBatchValues (p₁ p₂ : Nat × Nat) (b₁ b₂ : Nat) (g : Grid) : Grid :=
  g.map (swapEntry p₁ p₂ b₁ b₂)

/-- The positions strictly after `p` in row-major order. -/
def seatsAfter (cfg : EngineConfig) (p : Nat × Nat) : List (Nat × Nat) :=
  ((gridPositions cfg.rows cfg.cols).dropWhile (fun q => decide (q ≠ p))).drop 1

/-- The already-visited left and up neighbours of a seat in a row-major scan. -/
def earlierNeighbors (p : Nat × Nat) : List (Nat × Nat) :=
  (if 0 < p.2 then [(p.1, p.2 - 1)] else []) ++ (if 0 < p.1 then [(p.1 - 1, p.2)] else [])

/-- Modelled from the spec: one repair step of §4.2 — when the seat's batch
equals an already-visited left or up neighbour's batch, search forward for
the nearest seat of a different batch and swap the two batch assignments. -/
def fixSeat (cfg : EngineConfig) (g : Grid) (p : Nat × Nat) : Grid :=
  match batchAt g p with
  | none => g
  | some b =>
    if (earlierNeighbors p).any (fun q => batchAt g q == some b) then
      match (seatsAfter cfg p).find? (fun q =>
          match batchAt g q with
          | some b2 => decide (b2 ≠ b)
          | none => false) with
      | some q =>
        match batchAt g q with
        | some b2 => swapBatchValues p q b b2 g
        | none => g
      | none => g
    else g

/-- Modelled from the spec: one full row-major repair pass of §4.2. -/
def resolvePass (cfg : EngineConfig) (g : Grid) : Grid :=
  (gridPositions cfg.rows cfg.cols).foldl (fixSeat cfg) g

/-- Modelled from the spec: repeat repair passes until a pass changes
nothing or the pass budget is exhausted. -/
def resolveLoop (cfg : EngineConfig) : Nat → Grid → Grid
  | 0, g => g
  | n + 1, g =>
    let g2 := resolvePass cfg g
    if g2 = g then g else resolveLoop cfg n g2

/-- Modelled from the spec: the Adjacency Resolver of §4.2 with its bounded
budget of `3 ×` grid area passes; infeasible configurations end best-effort,
never fatally. -/
def resolveAdjacency (cfg : EngineConfig) (g : Grid) : Grid :=
  resolveLoop cfg (3 * cfg.rows * cfg.cols) g

/-- Modelled from the spec: `generate()` — Grid Building followed by
Adjacency Resolution when `enforce_no_adjacent_batches` is set (§2 control
flow, §6 engine outputs).  A total function: constraint infeasibility never
aborts. -/
def generateGrid (cfg : EngineConfig) : Grid :=
  let g := allocateSeats cfg cfg.counts (seatSeq cfg)
  if cfg.enforceNoAdjacent then resolveAdjacency cfg g else g

/-- Number of Allocated seats of a grid. -/
def countAllocated (g : Grid) : Nat := g.countP (fun e => e.2.isAlloc)

/-- Number of grid positions not listed as broken. -/
def nonBrokenTotal (cfg : EngineConfig) : Nat :=
  (gridPositions cfg.rows cfg.cols).countP (fun p => decide (p ∉ cfg.brokenSeats))

/-- The status recorded for a position (Unallocated when absent). -/
def statusAt (g : Grid) (p : Nat × Nat) : SeatStatus :=
  match g.find? (fun e => decide (e.1 = p)) with
  | some e => e.2
  | none => .unallocated

/-- A structured violation entry (kind plus location/detail text), §4.4. -/
structure Violation where
  vkind : String
  detail : String
deriving DecidableEq

/-- Render a position for violation details. -/
def posStr (p : Nat × Nat) : String := toString p.1 ++ "-" ++ toString p.2

/-- Number of seats allocated to one batch. -/
def countAllocatedToBatch (b : Nat) (g : Grid) : Nat :=
  g.countP (fun e => e.2 == SeatStatus.allocated b)

/-- Modelled from the spec: `capacity_exceeded` entries of §4.4. -/
def capacityViolations (cfg : EngineConfig) (g : Grid) : List Violation :=
  (List.range cfg.counts.length).filterMap (fun i =>
    if cfg.counts.getD i 0 < countAllocatedToBatch (i + 1) g then
      some ⟨"capacity_exceeded", "batch " ++ toString (i + 1)⟩
    else none)

/-- Modelled from the spec: `broken_seat_allocated` entries of §4.4. -/
def brokenAllocViolations (cfg : EngineConfig) (g : Grid) : List Violation :=
  g.filterMap (fun e =>
    if e.2.isAlloc && decide (e.1 ∈ cfg.brokenSeats) then
      some ⟨"broken_seat_allocated", posStr e.1⟩
    else none)

/-- Modelled from the spec: the `insufficient_capacity` entry of §4.4. -/
def insufficientViolations (cfg : EngineConfig) : List Violation :=
  if nonBrokenTotal cfg < cfg.counts.sum then
    [⟨"insufficient_capacity",
      "available " ++ toString (nonBrokenTotal cfg) ++ " needed " ++ toString cfg.counts.sum⟩]
  else []

/-- Modelled from the spec: `adjacent_same_batch` entries of §4.4 — two
edge-adjacent seats holding the same batch id (each unordered pair reported
once, via its left/top member). -/
def adjacentViolations (cfg : EngineConfig) (g : Grid) : List Violation :=
  (gridPositions cfg.rows cfg.cols).flatMap (fun p =>
    match batchAt g p with
    | none => []
    | some b =>
      (if p.2 + 1 < cfg.cols ∧ batchAt g (p.1, p.2 + 1) = some b then
        [⟨"adjacent_same_batch", posStr p ++ " " ++ posStr (p.1, p.2 + 1)⟩] else []) ++
      (if p.1 + 1 < cfg.rows ∧ batchAt g (p.1 + 1, p.2) = some b then
        [⟨"adjacent_same_batch", posStr p ++ " " ++ posStr (p.1 + 1, p.2)⟩] else []))

/-- Modelled from the spec: `validate()` of §4.4 — re-derive every invariant
from the finished grid and return `(is_valid, violations)` with `is_valid`
true iff the list is empty (adjacency only checked when enforcement was
requested). -/
def validateConstraints (cfg : EngineConfig) (g : Grid) : Bool × List Violation :=
  let vs :=
    (if cfg.enforceNoAdjacent then adjacentViolations cfg g else []) ++
    capacityViolations cfg g ++ brokenAllocViolations cfg g ++ insufficientViolations cfg
  (vs.isEmpty, vs)

/-- Zero-pad a serial to the configured width (width 0 means no padding). -/
def padSerial (w n : Nat) : String :=
  let s := toString n
  if s.length < w then String.mk (List.replicate (w - s.length) '0' ++ s.data) else s

/-- Modelled from the spec: the Roll Synthesizer walk of §4.3, simplified to
the `per_batch` serial mode — each Allocated seat consumes the next roster
entry of its batch, falling back to the generated
`prefix + zero-padded serial` label when the roster is exhausted (the
roster-shortfall warning of §4.3 is represented by the generated fallback
label); non-Allocated seats get no label. -/
def labelsGo (cfg : EngineConfig) : List Nat → Grid → List (Option String)
  | _, [] => []
  | counters, e :: rest =>
    match e.2 with
    | .allocated b =>
      let k := counters.getD (b - 1) 0
      let roster := cfg.rosters.getD (b - 1) []
      let lab :=
        if h : k < roster.length then roster.get ⟨k, h⟩
        else (cfg.batchPrefixes.getD (b - 1) ("B" ++ toString b)) ++
          padSerial cfg.serialWidth (cfg.startSerial + k)
      some lab :: labelsGo cfg (counters.set (b - 1) (k + 1)) rest
    | _ => none :: labelsGo cfg counters rest

/-- Modelled from the spec: `project()`-side label assignment — one optional
label per grid entry, in grid order. -/
def synthesizeLabels (cfg : EngineConfig) (g : Grid) : List (Option String) :=
  labelsGo cfg (List.replicate cfg.counts.length 0) g

/-- One complete engine run: the finished grid and its label assignment. -/
def fullRun (cfg : EngineConfig) : Grid × List (Option String) :=
  let g := generateGrid cfg
  (g, synthesizeLabels cfg g)

/-! ## HTTP endpoints (src/algo/app.py), over the modelled engine -/

/-- The request fields of `/api/generate-seating` that the claims exercise,
after Flask's `int(...)`/`bool(...)` coercions (lines 517-523): dimension
fields are arbitrary ints at this point, the broken-seat field is still the
raw request string. -/
structure SeatingRequest where
  rows : Int
  cols : Int
  numBatches : Int
  blockWidth : Int
  batchByColumn : Bool
  enforceNoAdjacentBatches : Bool
  brokenSeatsStr : String
  counts : List Nat
  rosters : List (List String)
  batchPrefixes : List String
  startSerial : Nat
  serialWidth : Nat
deriving DecidableEq

/-- The engine configuration `generate_seating` builds (app.py 620-640)
after parsing the broken-seat string; positive once validation has passed,
so `Int.toNat` is exact there. -/
def buildConfig (q : SeatingRequest) : EngineConfig where
  rows := q.rows.toNat
  cols := q.cols.toNat
  blockWidth := q.blockWidth.toNat
  batchByColumn := q.batchByColumn
  enforceNoAdjacent := q.enforceNoAdjacentBatches
  brokenSeats := (parseBrokenSeats q.brokenSeatsStr q.rows q.cols).map
    (fun p => (p.1.toNat, p.2.toNat))
  counts := q.counts
  rosters := q.rosters
  batchPrefixes := q.batchPrefixes
  startSerial := q.startSerial
  serialWidth := q.serialWidth

/-- The successful response body of `/api/generate-seating` (app.py
642-649): the web-format grid with labels together with the
`validation.is_valid` flag and `validation.errors` list from
`validate_constraints`, all in the same response. -/
structure SeatingResponse where
  grid : Grid
  labels : List (Option String)
  isValid : Bool
  validationErrors : List Violation
deriving DecidableEq

/-- Embeds the `/api/generate-seating` handler (app.py 504-651) over the
modelled engine: input validation first (its failure is the 400 error and no
grid is built); past validation, the run is unconditional — generate,
validate, and answer with grid, labels, `is_valid` and the violation list
together. -/
def generateSeatingHandler (q : SeatingRequest) : Except String SeatingResponse :=
  match generateSeatingValidation q.rows q.cols q.numBatches q.blockWidth with
  | some err => .error err
  | none =>
    let cfg := buildConfig q
    let g := generateGrid cfg
    let v := validateConstraints cfg g
    .ok ⟨g, synthesizeLabels cfg g, v.1, v.2⟩

/-- Modelled from the spec: the synthetic equal-sized batches the
feasibility-only check of §4.5 runs against when no rosters or counts are
given — every batch gets the same count, the ceiling of grid area over batch
count. -/
def syntheticCounts (rows cols numBatches : Nat) : List Nat :=
  List.replicate numBatches ((rows * cols + numBatches - 1) / numBatches)

/-- The configuration the `/api/constraints-status` endpoint runs: the
request's layout fields with no rosters, no explicit counts and no label
data (app.py 681-689), the engine filling in synthetic equal-sized batches
(modelled from the spec, §4.5). -/
def feasibilityConfig (q : SeatingRequest) : EngineConfig :=
  { buildConfig q with
      counts := syntheticCounts q.rows.toNat q.cols.toNat q.numBatches.toNat
      rosters := []
      batchPrefixes := [] }

/-- Embeds the `/api/constraints-status` handler (app.py 656-693) over the
modelled engine: no input validation, build the feasibility configuration,
generate, and return the violation list of the finished grid — the same
structured `Violation` entries `validate()` produces, no labels involved. -/
def constraintsStatusHandler (q : SeatingRequest) : Except String (List Violation) :=
  let cfg := feasibilityConfig q
  .ok (validateConstraints cfg (generateGrid cfg)).2


/-! ## Concrete instances used by the witnesses -/

/-- Witness configuration: a 2 by 2 grid, batch demand (2 and 3 seats)
exceeding the 3 working seats, seat (0,0) broken. -/
def cfgW1 : EngineConfig :=
  ⟨2, 2, 1, true, false, [(0, 0)], [2, 3], [], [], 1, 0⟩

/-- Witness configuration: a 2 by 2 grid with seat (0,1) broken. -/
def cfgW2 : EngineConfig :=
  ⟨2, 2, 1, true, false, [(0, 1)], [2, 2], [], [], 1, 0⟩

/-- Witness configuration: adjacency enforcement with rosters and a prefix. -/
def cfgW7 : EngineConfig :=
  ⟨2, 3, 1, true, true, [], [3, 3], [["R1", "R2", "R3"]], ["CS"], 1, 2⟩

/-- Witness request: valid input whose batch demand (18) exceeds the grid
capacity (4), so the run carries constraint violations. -/
def reqW4 : SeatingRequest :=
  ⟨2, 2, 2, 1, true, false, "1-1", [9, 9], [], [], 1, 0⟩

/-- Witness database state: three students in two batches, interleaved. -/
def dbW : List StudentRow := [("B", "e1"), ("A", "e2"), ("B", "e3")]

/-- Witness dataframe: one good row, one empty enrollment, one
whitespace-only enrollment. -/
def dfW : List (String × String) := [("E1", "a"), ("", "b"), (" ", "c")]

/-! ## Helper lemmas -/

theorem sum_set_pred (l : List Nat) (i : Nat) (h : 0 < l.getD i 0) :
    (l.set i (l.getD i 0 - 1)).sum + 1 = l.sum := by
  induction l generalizing i with
  | nil => simp [List.getD] at h
  | cons a t ih =>
    cases i with
    | zero =>
      simp only [List.getD_cons_zero] at h
      simp only [List.getD_cons_zero, List.set_cons_zero, List.sum_cons]
      omega
    | succ n =>
      simp only [List.getD_cons_succ] at h
      simp only [List.getD_cons_succ, List.set_cons_succ, List.sum_cons]
      have := ih n h
      omega

theorem mem_rotation (len j pref : Nat) (h : j < len) :
    j ∈ (List.range len).map (fun k => (pref + k) % len) := by
  have hlen : 0 < len := Nat.lt_of_le_of_lt (Nat.zero_le _) h
  have hplt : pref % len < len := Nat.mod_lt _ hlen
  refine List.mem_map.mpr ?_
  by_cases hc : pref % len ≤ j
  · refine ⟨j - pref % len, List.mem_range.mpr (by omega), ?_⟩
    rw [Nat.add_mod]
    have h1 : (j - pref % len) % len = j - pref % len := Nat.mod_eq_of_lt (by omega)
    rw [h1]
    have h2 : pref % len + (j - pref % len) = j := by omega
    rw [h2, Nat.mod_eq_of_lt h]
  · refine ⟨len + j - pref % len, List.mem_range.mpr (by omega), ?_⟩
    rw [Nat.add_mod]
    have h1 : (len + j - pref % len) % len = len + j - pref % len :=
      Nat.mod_eq_of_lt (by omega)
    rw [h1]
    have h2 : pref % len + (len + j - pref % len) = len + j := by omega
    rw [h2, Nat.add_mod_left, Nat.mod_eq_of_lt h]

theorem pickBatch_eq_none (pref : Nat) (remaining : List Nat)
    (h : pickBatch pref remaining = none) : remaining.sum = 0 := by
  by_contra hs
  have hx : ∃ x ∈ remaining, x ≠ 0 := by
    by_contra hall
    push_neg at hall
    exact hs (List.sum_eq_zero_iff.mpr hall)
  obtain ⟨x, hmem, hx0⟩ := hx
  obtain ⟨⟨j, hj⟩, hget⟩ := List.mem_iff_get.mp hmem
  have hgd : 0 < remaining.getD j 0 := by
    have h1 : remaining[j] = x := by simpa using hget
    rw [List.getD_eq_getElem _ _ hj, h1]
    omega
  have hrot := mem_rotation remaining.length j pref hj
  have : (pickBatch pref remaining).isSome = true := by
    unfold pickBatch
    exact List.find?_isSome.mpr ⟨j, hrot, by simpa using hgd⟩
  rw [h] at this
  simp at this

theorem pickBatch_eq_some (pref i : Nat) (remaining : List Nat)
    (h : pickBatch pref remaining = some i) :
    i < remaining.length ∧ 0 < remaining.getD i 0 := by
  have h1 := List.find?_some h
  have h2 := List.mem_of_find?_eq_some h
  constructor
  · obtain ⟨k, hk, hkeq⟩ := List.mem_map.mp h2
    rcases Nat.eq_zero_or_pos remaining.length with h0 | h0
    · rw [h0] at hk
      simp at hk
    · rw [← hkeq]
      exact Nat.mod_lt _ h0
  · simpa using h1

theorem countAllocated_allocateSeats (cfg : EngineConfig) (seq : List (Nat × Nat)) :
    ∀ remaining : List Nat,
      countAllocated (allocateSeats cfg remaining seq) =
        min remaining.sum (seq.countP (fun p => decide (p ∉ cfg.brokenSeats))) := by
  induction seq with
  | nil => intro remaining; simp [allocateSeats, countAllocated]
  | cons p rest ih =>
    intro remaining
    by_cases hb : p ∈ cfg.brokenSeats
    · simp only [allocateSeats, if_pos hb]
      unfold countAllocated at ih ⊢
      rw [List.countP_cons, List.countP_cons, ih remaining]
      simp [hb, SeatStatus.isAlloc]
    · cases hpick : pickBatch (blockIndex cfg p) remaining with
      | none =>
        have hsum := pickBatch_eq_none _ _ hpick
        simp only [allocateSeats, if_neg hb, hpick]
        unfold countAllocated at ih ⊢
        rw [List.countP_cons, List.countP_cons, ih remaining, hsum]
        simp [hb, SeatStatus.isAlloc] <;> omega
      | some i =>
        obtain ⟨hlt, hpos⟩ := pickBatch_eq_some _ _ _ hpick
        have hdec := sum_set_pred remaining i hpos
        simp only [List.getD_eq_getElem?_getD] at hdec
        simp only [allocateSeats, if_neg hb, hpick]
        unfold countAllocated at ih ⊢
        rw [List.countP_cons, List.countP_cons,
          ih (remaining.set i (remaining.getD i 0 - 1))]
        simp [hb, SeatStatus.isAlloc]
        omega

theorem allocateSeats_broken (cfg : EngineConfig) (seq : List (Nat × Nat)) :
    ∀ (remaining : List Nat) (p : Nat × Nat) (s : SeatStatus),
      (p, s) ∈ allocateSeats cfg remaining seq → p ∈ cfg.brokenSeats →
      s = SeatStatus.broken := by
  induction seq with
  | nil => intro remaining p s hm; simp [allocateSeats] at hm
  | cons q rest ih =>
    intro remaining p s hm hbp
    by_cases hb : q ∈ cfg.brokenSeats
    · simp only [allocateSeats, if_pos hb, List.mem_cons] at hm
      rcases hm with hm | hm
      · rw [Prod.mk.injEq] at hm
        exact hm.2
      · exact ih _ _ _ hm hbp
    · simp only [allocateSeats, if_neg hb] at hm
      cases hpick : pickBatch (blockIndex cfg q) remaining with
      | none =>
        rw [hpick] at hm
        simp only [List.mem_cons] at hm
        rcases hm with hm | hm
        · rw [Prod.mk.injEq] at hm
          exact absurd (hm.1 ▸ hbp) hb
        · exact ih _ _ _ hm hbp
      | some i =>
        rw [hpick] at hm
        simp only [List.mem_cons] at hm
        rcases hm with hm | hm
        · rw [Prod.mk.injEq] at hm
          exact absurd (hm.1 ▸ hbp) hb
        · exact ih _ _ _ hm hbp

theorem allocateSeats_positions (cfg : EngineConfig) (seq : List (Nat × Nat)) :
    ∀ remaining : List Nat, (allocateSeats cfg remaining seq).map Prod.fst = seq := by
  induction seq with
  | nil => intro remaining; simp [allocateSeats]
  | cons q rest ih =>
    intro remaining
    by_cases hb : q ∈ cfg.brokenSeats
    · simp [allocateSeats, if_pos hb, ih]
    · simp only [allocateSeats, if_neg hb]
      cases hpick : pickBatch (blockIndex cfg q) remaining with
      | none => simp [ih]
      | some i => simp [ih]

/-- Projection of a grid to positions and status kinds, forgetting batch ids. -/
def projKind (g : Grid) : List ((Nat × Nat) × Nat) :=
  g.map (fun e => (e.1, e.2.kind))

theorem projKind_swapBatchValues (p₁ p₂ : Nat × Nat) (b₁ b₂ : Nat) (g : Grid) :
    projKind (swapBatchValues p₁ p₂ b₁ b₂ g) = projKind g := by
  unfold projKind swapBatchValues
  rw [List.map_map]
  apply List.map_congr_left
  intro e _
  rcases e with ⟨q, s⟩
  cases s with
  | broken => rfl
  | unallocated => rfl
  | allocated b =>
    simp only [Function.comp_apply, swapEntry]
    by_cases h1 : q = p₁
    · simp [h1, SeatStatus.kind]
    · by_cases h2 : q = p₂
      · subst h2
        simp [if_neg h1, SeatStatus.kind]
      · simp [h1, h2, SeatStatus.kind]

theorem projKind_fixSeat (cfg : EngineConfig) (g : Grid) (p : Nat × Nat) :
    projKind (fixSeat cfg g p) = projKind g := by
  unfold fixSeat
  cases batchAt g p with
  | none => rfl
  | some b =>
    simp only
    split
    · split
      · split
        · apply projKind_swapBatchValues
        · rfl
      · rfl
    · rfl

theorem projKind_foldl_fixSeat (cfg : EngineConfig) (l : List (Nat × Nat)) :
    ∀ g : Grid, projKind (l.foldl (fixSeat cfg) g) = projKind g := by
  induction l with
  | nil => intro g; rfl
  | cons p rest ih =>
    intro g
    rw [List.foldl_cons, ih (fixSeat cfg g p), projKind_fixSeat]

theorem projKind_resolvePass (cfg : EngineConfig) (g : Grid) :
    projKind (resolvePass cfg g) = projKind g :=
  projKind_foldl_fixSeat cfg _ g

theorem projKind_resolveLoop (cfg : EngineConfig) (n : Nat) :
    ∀ g : Grid, projKind (resolveLoop cfg n g) = projKind g := by
  induction n with
  | zero => intro g; rfl
  | succ k ih =>
    intro g
    unfold resolveLoop
    simp only
    split
    · rfl
    · rw [ih (resolvePass cfg g), projKind_resolvePass]

theorem projKind_generateGrid (cfg : EngineConfig) :
    projKind (generateGrid cfg) =
      projKind (allocateSeats cfg cfg.counts (seatSeq cfg)) := by
  unfold generateGrid
  split
  · unfold resolveAdjacency
    rw [projKind_resolveLoop]
  · rfl

theorem countAllocated_projKind (g : Grid) :
    countAllocated g = (projKind g).countP (fun e => decide (e.2 = 2)) := by
  unfold countAllocated projKind
  rw [List.countP_map]
  apply List.countP_congr
  intro e _
  rcases e with ⟨q, s⟩
  cases s <;> simp [SeatStatus.isAlloc, SeatStatus.kind, Function.comp]

theorem countAllocated_eq_of_projKind (g₁ g₂ : Grid) (h : projKind g₁ = projKind g₂) :
    countAllocated g₁ = countAllocated g₂ := by
  rw [countAllocated_projKind, countAllocated_projKind, h]

theorem projKind_fst (g : Grid) : (projKind g).map Prod.fst = g.map Prod.fst := by
  unfold projKind
  rw [List.map_map]
  rfl

theorem mem_of_projKind (g₁ g₂ : Grid) (h : projKind g₁ = projKind g₂)
    (p : Nat × Nat) (s : SeatStatus) (hm : (p, s) ∈ g₁) :
    ∃ s₂, (p, s₂) ∈ g₂ ∧ s₂.kind = s.kind := by
  have h1 : (p, s.kind) ∈ projKind g₁ := by
    unfold projKind
    exact List.mem_map.mpr ⟨(p, s), hm, rfl⟩
  rw [h] at h1
  unfold projKind at h1
  obtain ⟨e, hmem, heq⟩ := List.mem_map.mp h1
  rw [Prod.mk.injEq] at heq
  exact ⟨e.2, by rw [← heq.1]; exact hmem, heq.2⟩

theorem kind_eq_zero_iff (s : SeatStatus) : s.kind = 0 ↔ s = SeatStatus.broken := by
  cases s <;> simp [SeatStatus.kind]

/-! ### Traversal-order counting -/

theorem countP_eq_sum_ind {α : Type} (l : List α) (p : α → Bool) :
    l.countP p = (l.map (fun a => if p a then 1 else 0)).sum := by
  induction l with
  | nil => rfl
  | cons a t ih =>
    rw [List.countP_cons, List.map_cons, List.sum_cons, ih]
    split <;> omega

theorem sum_map_add {α : Type} (l : List α) (f g : α → Nat) :
    (l.map (fun x => f x + g x)).sum = (l.map f).sum + (l.map g).sum := by
  induction l with
  | nil => rfl
  | cons a t ih =>
    simp only [List.map_cons, List.sum_cons, ih]
    omega

theorem sum_range_swap (f : Nat → Nat → Nat) (m n : Nat) :
    ((List.range m).map (fun i => ((List.range n).map (fun j => f i j)).sum)).sum =
      ((List.range n).map (fun j => ((List.range m).map (fun i => f i j)).sum)).sum := by
  induction m with
  | zero => simp
  | succ k ih =>
    rw [List.range_succ, List.map_append, List.sum_append, ih]
    simp only [List.map_cons, List.map_nil, List.sum_cons, List.sum_nil]
    have hsplit :
        ((List.range n).map (fun j => ((List.range k ++ [k]).map (fun i => f i j)).sum)).sum =
          ((List.range n).map (fun j => ((List.range k).map (fun i => f i j)).sum)).sum +
            ((List.range n).map (fun j => f k j)).sum := by
      rw [← sum_map_add]
      apply congrArg
      apply List.map_congr_left
      intro j _
      rw [List.map_append, List.sum_append]
      simp
    rw [hsplit]
    omega

theorem countP_colMajor_eq (r c : Nat) (q : Nat × Nat → Bool) :
    ((List.range c).flatMap (fun j => (List.range r).map (fun i => (i, j)))).countP q =
      ((List.range r).flatMap (fun i => (List.range c).map (fun j => (i, j)))).countP q := by
  rw [List.countP_flatMap, List.countP_flatMap]
  simp only [Function.comp_def, List.countP_map]
  simp only [countP_eq_sum_ind]
  exact sum_range_swap (fun j i => if q (i, j) then 1 else 0) c r

theorem countP_seatSeq (cfg : EngineConfig) (q : Nat × Nat → Bool) :
    (seatSeq cfg).countP q = (gridPositions cfg.rows cfg.cols).countP q := by
  unfold seatSeq gridPositions
  split
  · exact countP_colMajor_eq cfg.rows cfg.cols q
  · rfl

theorem mem_gridPositions (r c : Nat) (p : Nat × Nat) :
    p ∈ gridPositions r c ↔ p.1 < r ∧ p.2 < c := by
  unfold gridPositions
  rcases p with ⟨a, b⟩
  simp only [List.mem_flatMap, List.mem_range, List.mem_map, Prod.mk.injEq]
  constructor
  · rintro ⟨i, hi, j, hj, h1, h2⟩
    exact ⟨h1 ▸ hi, h2 ▸ hj⟩
  · rintro ⟨h1, h2⟩
    exact ⟨a, h1, b, h2, rfl, rfl⟩

theorem mem_seatSeq (cfg : EngineConfig) (p : Nat × Nat) :
    p ∈ seatSeq cfg ↔ p.1 < cfg.rows ∧ p.2 < cfg.cols := by
  unfold seatSeq
  split
  · rcases p with ⟨a, b⟩
    simp only [List.mem_flatMap, List.mem_range, List.mem_map, Prod.mk.injEq]
    constructor
    · rintro ⟨j, hj, i, hi, h1, h2⟩
      exact ⟨h1 ▸ hi, h2 ▸ hj⟩
    · rintro ⟨h1, h2⟩
      exact ⟨b, h2, a, h1, rfl, rfl⟩
  · exact mem_gridPositions cfg.rows cfg.cols p

theorem generateGrid_entry_broken (cfg : EngineConfig) (p : Nat × Nat) (s : SeatStatus)
    (hm : (p, s) ∈ generateGrid cfg) (hb : p ∈ cfg.brokenSeats) :
    s = SeatStatus.broken := by
  obtain ⟨s₀, hm₀, hk⟩ :=
    mem_of_projKind _ _ (projKind_generateGrid cfg) p s hm
  have h0 : s₀ = SeatStatus.broken :=
    allocateSeats_broken cfg (seatSeq cfg) cfg.counts p s₀ hm₀ hb
  apply (kind_eq_zero_iff s).mp
  rw [← hk, h0]
  rfl

theorem generateGrid_positions (cfg : EngineConfig) :
    (generateGrid cfg).map Prod.fst = seatSeq cfg := by
  calc (generateGrid cfg).map Prod.fst
      = (projKind (generateGrid cfg)).map Prod.fst := (projKind_fst _).symm
    _ = (projKind (allocateSeats cfg cfg.counts (seatSeq cfg))).map Prod.fst := by
        rw [projKind_generateGrid]
    _ = (allocateSeats cfg cfg.counts (seatSeq cfg)).map Prod.fst := projKind_fst _
    _ = seatSeq cfg := allocateSeats_positions cfg (seatSeq cfg) cfg.counts

theorem statusAt_generateGrid_broken (cfg : EngineConfig) (p : Nat × Nat)
    (h1 : p ∈ cfg.brokenSeats) (h2 : p.1 < cfg.rows) (h3 : p.2 < cfg.cols) :
    statusAt (generateGrid cfg) p = SeatStatus.broken := by
  have hpos : p ∈ (generateGrid cfg).map Prod.fst := by
    rw [generateGrid_positions]
    exact (mem_seatSeq cfg p).mpr ⟨h2, h3⟩
  obtain ⟨e, hme, hfst⟩ := List.mem_map.mp hpos
  have hsome : ((generateGrid cfg).find? (fun e => decide (e.1 = p))).isSome :=
    List.find?_isSome.mpr ⟨e, hme, by simp [hfst]⟩
  obtain ⟨e2, hfind⟩ := Option.isSome_iff_exists.mp hsome
  have hef : e2.1 = p := by simpa using List.find?_some hfind
  have hemem : (p, e2.2) ∈ generateGrid cfg := by
    rw [← hef]
    simpa using List.mem_of_find?_eq_some hfind
  have hbr := generateGrid_entry_broken cfg p e2.2 hemem h1
  unfold statusAt
  rw [hfind]
  exact hbr

/-! ### Lemmas about the DB batch mappings -/

theorem mem_insertSorted (a s : String) (l : List String) :
    a ∈ insertSorted s l ↔ a = s ∨ a ∈ l := by
  induction l with
  | nil => simp [insertSorted]
  | cons t ts ih =>
    unfold insertSorted
    split
    · simp
    · simp only [List.mem_cons, ih]
      tauto

theorem mem_sortStrings (a : String) (l : List String) :
    a ∈ sortStrings l ↔ a ∈ l := by
  induction l with
  | nil => simp [sortStrings]
  | cons t ts ih =>
    unfold sortStrings at ih ⊢
    rw [List.foldr_cons, mem_insertSorted, ih, List.mem_cons]

theorem enumFrom_length {α : Type} (n : Nat) (l : List α) :
    (enumFrom n l).length = l.length := by
  induction l generalizing n with
  | nil => rfl
  | cons a t ih => simp [enumFrom, ih]

theorem enumFrom_getElem {α : Type} (n : Nat) (l : List α) (i : Nat)
    (h : i < (enumFrom n l).length) (h2 : i < l.length) :
    (enumFrom n l).get ⟨i, h⟩ = (n + i, l.get ⟨i, h2⟩) := by
  induction l generalizing n i with
  | nil => simp at h2
  | cons a t ih =>
    cases i with
    | zero => simp [enumFrom]
    | succ k =>
      have hk : k < (enumFrom (n + 1) t).length := by
        simpa [enumFrom] using h
      have hk2 : k < t.length := by simpa using h2
      show (enumFrom (n + 1) t).get ⟨k, hk⟩ = _
      rw [ih (n + 1) k hk hk2]
      simp
      omega

/-! ### Lemmas about the student parser -/

theorem extractMode1Go_length (l : List String) :
    ∀ idx : Nat,
      (extractMode1Go idx l).1.length = l.countP (fun v => !(v == "")) := by
  induction l with
  | nil => intro idx; rfl
  | cons v rest ih =>
    intro idx
    unfold extractMode1Go
    rw [List.countP_cons]
    by_cases hv : v = ""
    · simp [hv, ih]
    · by_cases hf : enrollFormatOk (normEnroll v) = true
      · simp [hv, hf, ih]
      · simp [hv, hf, ih]

theorem extractMode2Go_length (l : List (String × String)) :
    ∀ idx : Nat,
      (extractMode2Go idx l).1.length = l.countP (fun r => !(r.1 == "")) := by
  induction l with
  | nil => intro idx; rfl
  | cons v rest ih =>
    intro idx
    rcases v with ⟨rawEn, rawName⟩
    unfold extractMode2Go
    rw [List.countP_cons]
    by_cases hv : rawEn = ""
    · simp [hv, ih]
    · by_cases hf : enrollFormatOk (normEnroll rawEn) = true
      · simp [hv, hf, ih]
      · simp [hv, hf, ih]

theorem extractMode1Go_no_whitespace (l : List String) :
    ∀ (idx : Nat) (e : String), e ∈ (extractMode1Go idx l).1 →
      e.data.all (fun ch => !ch.isWhitespace) = true := by
  induction l with
  | nil => intro idx e he; simp [extractMode1Go] at he
  | cons v rest ih =>
    intro idx e he
    unfold extractMode1Go at he
    by_cases hv : v = ""
    · rw [if_pos hv] at he
      exact ih _ _ he
    · rw [if_neg hv] at he
      have hnorm : (normEnroll v).data.all (fun ch => !ch.isWhitespace) = true := by
        unfold normEnroll
        rw [List.all_eq_true]
        intro ch hch
        simp only [String.data] at hch
        exact (List.mem_filter.mp hch).2
      by_cases hf : enrollFormatOk (normEnroll v) = true
      · rw [if_pos hf] at he
        rcases List.mem_cons.mp he with he | he
        · rw [he]; exact hnorm
        · exact ih _ _ he
      · rw [if_neg hf] at he
        rcases List.mem_cons.mp he with he | he
        · rw [he]; exact hnorm
        · exact ih _ _ he

/-! ### Indexing lemmas for the DB agreement claim -/

theorem getD_map_of_lt {α β : Type} (f : α → β) (l : List α) (i : Nat)
    (h : i < l.length) (d : β) :
    (l.map f).getD i d = f (l.get ⟨i, h⟩) := by
  rw [List.getD_eq_getElem _ _ (by simpa using h), List.getElem_map,
    List.get_eq_getElem]

theorem countsLabels_getD (db : List StudentRow) :
    ∀ names : List String, (∀ name ∈ names, name ≠ "") →
      ∀ (i : Nat) (hi : i < names.length) (start : Nat),
      ((enumFrom start names).map
        (fun e => ((db.filter (fun r => r.1 = e.2)).length,
                   if e.2 = "" then "BATCH" ++ toString e.1 else e.2))).getD i (0, "") =
        ((db.filter (fun r => r.1 = names.get ⟨i, hi⟩)).length, names.get ⟨i, hi⟩) := by
  intro names
  induction names with
  | nil =>
    intro _ i hi
    simp at hi
  | cons a t ih =>
    intro hne i hi start
    cases i with
    | zero =>
      have ha : a ≠ "" := hne a (by simp)
      simp [enumFrom, ha]
    | succ k =>
      have hk : k < t.length := by simpa using hi
      simp only [enumFrom, List.map_cons, List.getD_cons_succ]
      rw [ih (fun name hm => hne name (List.mem_cons_of_mem _ hm)) k hk (start + 1)]
      simp

/-! ## Claim theorems -/

/-- C1: for every valid input configuration (rows ≥ 1, cols ≥ 1, between 1
and 200 batches, block width valid for the request), after `generate()`
completes the number of seats with status Allocated equals the minimum of
the total batch seat demand and the number of non-broken grid positions. -/
theorem c1_allocated_count_eq_min (cfg : EngineConfig)
    (hrows : 1 ≤ cfg.rows) (hcols : 1 ≤ cfg.cols)
    (hbatches1 : 1 ≤ cfg.counts.length) (hbatches2 : cfg.counts.length ≤ 200)
    (hbw1 : 1 ≤ cfg.blockWidth) (hbw2 : cfg.blockWidth ≤ cfg.cols) :
    countAllocated (generateGrid cfg) = min cfg.counts.sum (nonBrokenTotal cfg) := by
  rw [countAllocated_eq_of_projKind _ _ (projKind_generateGrid cfg),
    countAllocated_allocateSeats cfg (seatSeq cfg) cfg.counts]
  unfold nonBrokenTotal
  rw [countP_seatSeq]

/-- Witness for C1 at the concrete configuration `cfgW1` (demand 5, three
working seats). -/
theorem c1_allocated_count_eq_min_witness :
    countAllocated (generateGrid cfgW1) = min cfgW1.counts.sum (nonBrokenTotal cfgW1) :=
  c1_allocated_count_eq_min cfgW1 (by decide) (by decide) (by decide) (by decide)
    (by decide) (by decide)

/-- C2: every seat position listed in `broken_seats` ends the run with
status Broken and is never Allocated — it is skipped during block assignment
and no batch entry for it appears in the grid. -/
theorem c2_broken_seat_never_allocated (cfg : EngineConfig) (p : Nat × Nat) (b : Nat)
    (h1 : p ∈ cfg.brokenSeats) (h2 : p.1 < cfg.rows) (h3 : p.2 < cfg.cols) :
    statusAt (generateGrid cfg) p = SeatStatus.broken ∧
      (p, SeatStatus.allocated b) ∉ generateGrid cfg := by
  refine ⟨statusAt_generateGrid_broken cfg p h1 h2 h3, ?_⟩
  intro hmem
  have hcontra := generateGrid_entry_broken cfg p (SeatStatus.allocated b) hmem h1
  simp at hcontra

/-- Witness for C2 at `cfgW2` and its broken seat (0,1). -/
theorem c2_broken_seat_never_allocated_witness :
    statusAt (generateGrid cfgW2) (0, 1) = SeatStatus.broken ∧
      ((0, 1), SeatStatus.allocated 1) ∉ generateGrid cfgW2 :=
  c2_broken_seat_never_allocated cfgW2 (0, 1) 1 (by decide) (by decide) (by decide)

/-- C3 counterexample: block width 4 does not divide the column extent 15
yet the request passes `generate_seating` validation, and with row-major
blocks a width (5) that divides the row extent (10) is rejected because the
check always compares against cols — the claim as stated is false. -/
theorem c3_counterexample_divisibility_not_checked :
    generateSeatingValidation 10 15 3 4 = none ∧ ¬ ((4 : Int) ∣ 15) ∧
      generateSeatingValidation 10 3 2 5 = some ("Invalid block_width") ∧
      (5 : Int) ∣ 10 := by decide

/-- C3 amended: `generate_seating` rejects exactly rows < 1, cols < 1,
num_batches outside 1..200, block_width < 1 or block_width > cols — the
bound is cols regardless of orientation and divecibility is never required —
and a rejected request yields the error response, never a grid; the
`constraints_status` endpoint performs no such validation and always
answers. -/
theorem c3_amended_validation_exact (rows cols numBatches blockWidth : Int)
    (q : SeatingRequest) :
    (generateSeatingValidation rows cols numBatches blockWidth = none ↔
      1 ≤ rows ∧ 1 ≤ cols ∧ 1 ≤ numBatches ∧ numBatches ≤ 200 ∧
        1 ≤ blockWidth ∧ blockWidth ≤ cols) ∧
    (generateSeatingHandler q).isOk =
      (generateSeatingValidation q.rows q.cols q.numBatches q.blockWidth).isNone ∧
    (constraintsStatusHandler q).isOk = true := by
  refine ⟨?_, ?_, rfl⟩
  · unfold generateSeatingValidation
    split_ifs with hA hB <;> simp <;> omega
  · unfold generateSeatingHandler
    cases hv : generateSeatingValidation q.rows q.cols q.numBatches q.blockWidth with
    | none => rfl
    | some e => rfl

/-- C4: when input validation passes, constraint violations never abort the
run — the handler completes and answers with the best-effort grid, the
labels, and the `is_valid` flag plus structured violation list of
`validate()` in the same response. -/
theorem c4_constraint_violations_never_abort (q : SeatingRequest)
    (h : generateSeatingValidation q.rows q.cols q.numBatches q.blockWidth = none) :
    generateSeatingHandler q =
      Except.ok ⟨generateGrid (buildConfig q),
        synthesizeLabels (buildConfig q) (generateGrid (buildConfig q)),
        (validateConstraints (buildConfig q) (generateGrid (buildConfig q))).1,
        (validateConstraints (buildConfig q) (generateGrid (buildConfig q))).2⟩ := by
  unfold generateSeatingHandler
  rw [h]

/-- Witness for C4 at `reqW4`, a valid request whose demand exceeds
capacity. -/
theorem c4_constraint_violations_never_abort_witness :
    generateSeatingHandler reqW4 =
      Except.ok ⟨generateGrid (buildConfig reqW4),
        synthesizeLabels (buildConfig reqW4) (generateGrid (buildConfig reqW4)),
        (validateConstraints (buildConfig reqW4) (generateGrid (buildConfig reqW4))).1,
        (validateConstraints (buildConfig reqW4) (generateGrid (buildConfig reqW4))).2⟩ :=
  c4_constraint_violations_never_abort reqW4 (by decide)

/-- C5 counterexample: with `use_demo_db` false and explicit per-batch
counts for two batches supplied, a requested `num_batches` of 5 is used
unchanged — it is not replaced by the number of supplied batches, so the
claim as stated is false. -/
theorem c5_counterexample_explicit_counts_do_not_override :
    effectiveNumBatches false [] [(1, 35), (2, 30)] 5 = 5 ∧
      ([(1, 35), (2, 30)] : List (Nat × Nat)).length = 2 ∧ (5 : Int) ≠ 2 := by decide

/-- C5 amended: `num_batches` is derived from batch data only on the
`use_demo_db` path when the DB returns a non-empty counts mapping;
explicitly supplied counts or rosters in the request leave `num_batches`
exactly as requested. -/
theorem c5_amended_num_batches_resolution
    (dbCounts explicitCounts : List (Nat × Nat)) (reqNB : Int) :
    effectiveNumBatches false dbCounts explicitCounts reqNB = reqNB ∧
    effectiveNumBatches true dbCounts explicitCounts reqNB =
      (if dbCounts.isEmpty then reqNB else (dbCounts.length : Int)) := by
  constructor <;> simp [effectiveNumBatches]

/-- C6: the feasibility-only check, given only layout parameters, runs Grid
Building and Adjacency Resolution on synthetic equal-sized batches and
returns exactly the violation list `validate()` produces on that run — the
same structured `Violation` shape — with no rosters and no label data
involved. -/
theorem c6_feasibility_check_shape (q : SeatingRequest) :
    constraintsStatusHandler q =
      Except.ok ((validateConstraints (feasibilityConfig q)
        (generateGrid (feasibilityConfig q))).2) ∧
    (feasibilityConfig q).counts =
      List.replicate q.numBatches.toNat
        ((q.rows.toNat * q.cols.toNat + q.numBatches.toNat - 1) / q.numBatches.toNat) ∧
    ((feasibilityConfig q).counts.all
      (fun x => x = (q.rows.toNat * q.cols.toNat + q.numBatches.toNat - 1) /
        q.numBatches.toNat)) = true ∧
    (feasibilityConfig q).rosters = [] := by
  refine ⟨rfl, rfl, ?_, rfl⟩
  rw [List.all_eq_true]
  intro x hx
  have hx2 : x ∈ List.replicate q.numBatches.toNat
      ((q.rows.toNat * q.cols.toNat + q.numBatches.toNat - 1) / q.numBatches.toNat) := hx
  simp only [decide_eq_true_eq]
  exact List.eq_of_mem_replicate hx2

/-- C7: `generate()` is deterministic — identical input configurations give
the identical grid (statuses and batch assignments) and the identical label
assignment. -/
theorem c7_generate_deterministic (cfg1 cfg2 : EngineConfig) (h : cfg1 = cfg2) :
    fullRun cfg1 = fullRun cfg2 ∧
      generateGrid cfg1 = generateGrid cfg2 ∧
      synthesizeLabels cfg1 (generateGrid cfg1) =
        synthesizeLabels cfg2 (generateGrid cfg2) := by
  rw [h]
  exact ⟨rfl, rfl, rfl⟩

/-- Witness for C7 at `cfgW7`. -/
theorem c7_generate_deterministic_witness :
    fullRun cfgW7 = fullRun cfgW7 ∧
      generateGrid cfgW7 = generateGrid cfgW7 ∧
      synthesizeLabels cfgW7 (generateGrid cfgW7) =
        synthesizeLabels cfgW7 (generateGrid cfgW7) :=
  c7_generate_deterministic cfgW7 cfgW7 rfl

/-- C8: every (row, col) pair the HTTP layer hands to the engine from the
broken-seats request string is in bounds — entries are converted from the
1-based `r-c` form to 0-based and malformed or out-of-bounds entries are
silently dropped. -/
theorem c8_broken_seats_in_bounds (s : String) (rows cols : Int) (p : Int × Int)
    (hp : p ∈ parseBrokenSeats s rows cols) :
    0 ≤ p.1 ∧ p.1 < rows ∧ 0 ≤ p.2 ∧ p.2 < cols := by
  unfold parseBrokenSeats at hp
  by_cases hs : s = ""
  · rw [if_pos hs] at hp
    simp at hp
  · rw [if_neg hs] at hp
    rw [List.mem_filterMap] at hp
    obtain ⟨part, hpart, hsome⟩ := hp
    by_cases hd : '-' ∈ part
    · rw [if_pos hd] at hsome
      cases hsp : splitOnceChar '-' part with
      | none =>
        rw [hsp] at hsome
        simp at hsome
      | some rc =>
        rcases rc with ⟨rs, cs⟩
        rw [hsp] at hsome
        simp only at hsome
        cases hr : parseIntPy rs with
        | none =>
          rw [hr] at hsome
          simp at hsome
        | some r =>
          cases hc : parseIntPy cs with
          | none =>
            rw [hr, hc] at hsome
            simp at hsome
          | some c =>
            rw [hr, hc] at hsome
            simp only at hsome
            split at hsome
            · rename_i hcond
              rw [Option.some.injEq] at hsome
              subst hsome
              simpa using hcond
            · simp at hsome
    · rw [if_neg hd] at hsome
      simp at hsome

/-- Witness for C8: the request string `"2-3, zz, 99-1"` on a 5 by 5 grid
keeps exactly the converted pair (1, 2). -/
theorem c8_broken_seats_in_bounds_witness :
    0 ≤ (1 : Int) ∧ (1 : Int) < 5 ∧ 0 ≤ (2 : Int) ∧ (2 : Int) < 5 :=
  c8_broken_seats_in_bounds "2-3, zz, 99-1" 5 5 (1, 2) (by decide)

/-- C9: when every student row has a non-empty batch name, the numeric batch
indices of `get_batch_counts_and_labels_from_db` and
`get_batch_roll_numbers_from_db` agree — the lists have the same length, at
every index the count equals the roll-list length, and the label at that
index names exactly the batch whose enrollments form that roll list. -/
theorem c9_db_batch_indexing_agree (db : List StudentRow) (i : Nat)
    (h : ∀ r ∈ db, r.1 ≠ "")
    (hi : i < (getBatchCountsAndLabels db).length) :
    (getBatchCountsAndLabels db).length = (getBatchRollNumbers db).length ∧
    ((getBatchCountsAndLabels db).getD i (0, "")).1 =
      ((getBatchRollNumbers db).getD i []).length ∧
    (getBatchRollNumbers db).getD i [] =
      (db.filter (fun r =>
        r.1 = ((getBatchCountsAndLabels db).getD i (0, "")).2)).map Prod.snd := by
  have hkeys : db.map (fun r => rollGroupKey r.1) = db.map Prod.fst :=
    List.map_congr_left (fun r hr => by simp [rollGroupKey, h r hr])
  have hroll : getBatchRollNumbers db =
      (sortStrings ((db.map Prod.fst).dedup)).map
        (fun key => (db.filter (fun r => rollGroupKey r.1 = key)).map Prod.snd) := by
    unfold getBatchRollNumbers
    rw [hkeys]
  have hlen1 : (getBatchCountsAndLabels db).length =
      (sortStrings ((db.map Prod.fst).dedup)).length := by
    unfold getBatchCountsAndLabels
    rw [List.length_map, enumFrom_length]
  have hlen2 : (getBatchRollNumbers db).length =
      (sortStrings ((db.map Prod.fst).dedup)).length := by
    rw [hroll, List.length_map]
  have hi2 : i < (sortStrings ((db.map Prod.fst).dedup)).length := by
    rw [← hlen1]
    exact hi
  have hne_all : ∀ name ∈ sortStrings ((db.map Prod.fst).dedup), name ≠ "" := by
    intro name hm
    obtain ⟨r, hr, hrfst⟩ :=
      List.mem_map.mp (List.mem_dedup.mp ((mem_sortStrings _ _).mp hm))
    rw [← hrfst]
    exact h r hr
  have hcl : (getBatchCountsAndLabels db).getD i (0, "") =
      ((db.filter (fun r =>
        r.1 = (sortStrings ((db.map Prod.fst).dedup)).get ⟨i, hi2⟩)).length,
        (sortStrings ((db.map Prod.fst).dedup)).get ⟨i, hi2⟩) := by
    unfold getBatchCountsAndLabels
    exact countsLabels_getD db _ hne_all i hi2 1
  have hfilter : db.filter (fun r =>
      rollGroupKey r.1 = (sortStrings ((db.map Prod.fst).dedup)).get ⟨i, hi2⟩) =
      db.filter (fun r =>
        r.1 = (sortStrings ((db.map Prod.fst).dedup)).get ⟨i, hi2⟩) := by
    apply List.filter_congr
    intro r hr
    simp [rollGroupKey, h r hr]
  have hbr : (getBatchRollNumbers db).getD i [] =
      (db.filter (fun r =>
        r.1 = (sortStrings ((db.map Prod.fst).dedup)).get ⟨i, hi2⟩)).map Prod.snd := by
    rw [hroll, getD_map_of_lt _ _ i hi2, hfilter]
  refine ⟨by rw [hlen1, hlen2], ?_, ?_⟩
  · rw [hcl, hbr, List.length_map]
  · rw [hbr, hcl]

/-- Witness for C9 at the three-row database `dbW`. -/
theorem c9_db_batch_indexing_agree_witness :
    (getBatchCountsAndLabels dbW).length = (getBatchRollNumbers dbW).length ∧
    ((getBatchCountsAndLabels dbW).getD 0 (0, "")).1 =
      ((getBatchRollNumbers dbW).getD 0 []).length ∧
    (getBatchRollNumbers dbW).getD 0 [] =
      (dbW.filter (fun r =>
        r.1 = ((getBatchCountsAndLabels dbW).getD 0 (0, "")).2)).map Prod.snd :=
  c9_db_batch_indexing_agree dbW 0 (by decide) (by decide)

/-- C10 counterexample: the whitespace-only cell `" "` is not skipped (only
the exactly-empty string is); it is normalized to the empty string and still
extracted, with an `invalid_enrollment_format` warning — so not every
extracted enrollment is non-empty and the claim as stated is false. -/
theorem c10_counterexample_whitespace_only_enrollment :
    "" ∈ (extractMode1 [" "]).1 ∧
      (extractMode1 [" "]).2 = [⟨1, "invalid_enrollment_format"⟩] := by decide

/-- C10 amended: in modes 1 and 2 the extracted rows are exactly the rows
whose enrollment cell is not the empty string (so `rows_extracted` is at
most `rows_total`), every extracted enrollment is whitespace-free but may be
empty when the cell was whitespace-only (then with an
`invalid_enrollment_format` warning), and any mode other than 1 or 2 raises
the `mode must be 1 or 2` error. -/
theorem c10_amended_extraction_counts (df : List (String × String)) (mode : Nat)
    (h1 : mode ≠ 1) (h2 : mode ≠ 2) :
    (extractMode1 (df.map Prod.fst)).1.length =
      (df.map Prod.fst).countP (fun v => !(v == "")) ∧
    (extractMode2 df).1.length = df.countP (fun r => !(r.1 == "")) ∧
    (extractMode1 (df.map Prod.fst)).1.length ≤ df.length ∧
    ((extractMode1 (df.map Prod.fst)).1.all
      (fun e => e.data.all (fun ch => !ch.isWhitespace))) = true ∧
    parseFileM mode df = Except.error ("mode must be 1 or 2") := by
  refine ⟨extractMode1Go_length _ 1, extractMode2Go_length _ 1, ?_, ?_, ?_⟩
  · calc (extractMode1 (df.map Prod.fst)).1.length
        = (df.map Prod.fst).countP (fun v => !(v == "")) := extractMode1Go_length _ 1
      _ ≤ (df.map Prod.fst).length := List.countP_le_length _
      _ = df.length := List.length_map _ _
  · rw [List.all_eq_true]
    intro e he
    exact extractMode1Go_no_whitespace _ 1 e he
  · unfold parseFileM
    rw [if_neg h1, if_neg h2]

/-- Witness for C10 (amended) at the dataframe `dfW` and mode 3. -/
theorem c10_amended_extraction_counts_witness :
    (extractMode1 (dfW.map Prod.fst)).1.length =
      (dfW.map Prod.fst).countP (fun v => !(v == "")) ∧
    (extractMode2 dfW).1.length = dfW.countP (fun r => !(r.1 == "")) ∧
    (extractMode1 (dfW.map Prod.fst)).1.length ≤ dfW.length ∧
    ((extractMode1 (dfW.map Prod.fst)).1.all
      (fun e => e.data.all (fun ch => !ch.isWhitespace))) = true ∧
    parseFileM 3 dfW = Except.error ("mode must be 1 or 2") :=
  c10_amended_extraction_counts dfW 3 (by decide) (by decide)
